import Mathlib

/-!
Verification of the Kalshi crypto trader's local exchange simulation and
accounting engine: the fee schedule (`src/execution/fee_calculator.py`),
the order-book store (`src/data/orderbook.py`), the paper matching engine
(`src/paper_trading/paper_engine.py`), the position/P&L ledger
(`src/execution/position_tracker.py`) and the risk gate
(`src/risk/risk_manager.py`).

Modelling conventions: Python floats are modelled as exact rationals (ℚ),
Python ints as ℤ, dicts as insertion-ordered association lists, and the
wall clock / uuid generator as explicit parameters.  Every definition is a
direct transcription of the corresponding Python function.
-/

attribute [local semireducible] Rat.add Rat.sub Rat.mul Rat.inv Rat.ofScientific

namespace KalshiTrader

/-- Computable ceiling on ℚ (the smallest integer that is ≥ the argument),
defined through Batteries' executable `Rat.floor`. -/
def qceil (q : ℚ) : ℤ := -(Rat.floor (-q))

/-- Python `int(x)` truncation toward zero on a rational. -/
def pyTrunc (q : ℚ) : ℤ := if 0 ≤ q then Rat.floor q else -(Rat.floor (-q))

/-- Python `round(x, d)` (round half to even at `d` decimal digits),
on the exact rational value. -/
def pyRound (x : ℚ) (d : ℕ) : ℚ :=
  let s : ℚ := (10 : ℚ) ^ d
  let y := x * s
  let n := Rat.floor y
  let frac := y - n
  if frac < 1/2 then (n : ℚ) / s
  else if 1/2 < frac then (n + 1 : ℚ) / s
  else if n % 2 = 0 then (n : ℚ) / s else (n + 1 : ℚ) / s

/- ------------------------------------------------------------------
   src/execution/fee_calculator.py
   ------------------------------------------------------------------ -/

/-- Embeds `TAKER_COEFF = 0.07`. -/
def TAKER_COEFF : ℚ := 0.07

/-- Embeds `MAKER_COEFF = 0.0175`. -/
def MAKER_COEFF : ℚ := 0.0175

/-- The `1e-9` epsilon subtracted before the ceiling in `calculate_fee`. -/
def feeEpsilon : ℚ := 1 / 1000000000

/-- The raw (un-rounded) fee `coeff * contracts * price * (1 - price)`
computed inside `calculate_fee`. -/
def rawFee (contracts : ℤ) (priceDollars : ℚ) (isMaker : Bool) : ℚ :=
  (if isMaker then MAKER_COEFF else TAKER_COEFF) *
    contracts * priceDollars * (1 - priceDollars)

/-- The fee in whole cents: `max(math.ceil(fee * 100 - 1e-9), 1)` from
`calculate_fee` in `src/execution/fee_calculator.py`. -/
def feeCents (contracts : ℤ) (priceDollars : ℚ) (isMaker : Bool) : ℤ :=
  max (qceil (rawFee contracts priceDollars isMaker * 100 - feeEpsilon)) 1

/-- Embeds `calculate_fee(contracts, price_dollars, is_maker)`: the fee in
dollars, rounded up to the next cent with a minimum of one cent. -/
def calculate_fee (contracts : ℤ) (priceDollars : ℚ) (isMaker : Bool) : ℚ :=
  (feeCents contracts priceDollars isMaker : ℚ) / 100

/- ------------------------------------------------------------------
   src/kalshi/models.py — the `Fill` event record.
   The uuid/timestamp metadata fields (`trade_id`, `order_id`,
   `created_time`), which no accounting code reads, are not modelled.
   ------------------------------------------------------------------ -/

/-- A trade execution event (`Fill` in `src/kalshi/models.py`). -/
structure Fill where
  ticker : String
  side : String
  action : String
  count : ℤ
  yesPrice : ℤ
  noPrice : ℤ
  isTaker : Bool
deriving DecidableEq, Repr

/-- Embeds `Fill.price_dollars`: the price (in dollars) of the side traded. -/
def Fill.priceDollars (f : Fill) : ℚ :=
  if f.side = "yes" then (f.yesPrice : ℚ) / 100 else (f.noPrice : ℚ) / 100

/- ------------------------------------------------------------------
   src/execution/position_tracker.py
   ------------------------------------------------------------------ -/

/-- Embeds `PositionState`: the state of a single market position. -/
structure PositionState where
  ticker : String := ""
  netContracts : ℤ := 0
  avgEntryPrice : ℚ := 0
  currentMarketPrice : ℚ := 0
  unrealizedPnl : ℚ := 0
  realizedPnl : ℚ := 0
  feesPaid : ℚ := 0
  totalBought : ℤ := 0
  totalSold : ℤ := 0
deriving DecidableEq, Repr

/-- Embeds `TradeRecord`: an immutable audit entry, one per processed fill. -/
structure TradeRecord where
  timestamp : String
  ticker : String
  side : String
  action : String
  contracts : ℤ
  priceDollars : ℚ
  feeDollars : ℚ
  isMaker : Bool
  strategy : String := ""
deriving DecidableEq, Repr

/-- Lookup the first binding of a key in an association list
(Python dict access). -/
def findA {α : Type} : List (String × α) → String → Option α
  | [], _ => none
  | (k, v) :: rest, key => if k = key then some v else findA rest key

/-- Replace the first binding of a key, or append a new binding at the
end (Python dict `d[k] = v` on an insertion-ordered dict). -/
def upsertA {α : Type} : List (String × α) → String → α → List (String × α)
  | [], key, v => [(key, v)]
  | (k, w) :: rest, key, v =>
    if k = key then (k, v) :: rest else (k, w) :: upsertA rest key v

/-- Embeds `PositionTracker`: positions, P&L accumulators and trade history.
The `KalshiClient` handle and session-start clock are not modelled. -/
structure PositionTracker where
  positions : List (String × PositionState) := []
  tradeHistory : List TradeRecord := []
  dailyResetDate : String := ""
  dailyPnl : ℚ := 0
  weeklyPnl : ℚ := 0
  totalFeesPaid : ℚ := 0
  initialBalance : ℚ := 0
deriving DecidableEq, Repr

/-- The position stored for a ticker, or a fresh `PositionState(ticker)`
when the dict holds none (`update_from_fill` inserts exactly that default
before mutating it). -/
def trackerPos (t : PositionTracker) (ticker : String) : PositionState :=
  (findA t.positions ticker).getD { ticker := ticker }

/-- The fee charged for a fill:
`calculate_fee(fill.count, fill.price_dollars, not fill.is_taker)`. -/
def fillFee (f : Fill) : ℚ := calculate_fee f.count f.priceDollars (!f.isTaker)

/-- The per-position part of `update_from_fill`: the fee accrual and the
side/action branch of the Python code, returning the updated position
together with the amount added to realized P&L and to the daily/weekly
accumulators (0 on non-realizing branches, `pnl - fee` on realizing
ones). -/
def fillStep (pos0 : PositionState) (f : Fill) : PositionState × ℚ :=
  let price := f.priceDollars
  let contracts := f.count
  let isBuy := f.action = "buy"
  let isYes := f.side = "yes"
  let fee := calculate_fee contracts price (!f.isTaker)
  let pos := { pos0 with feesPaid := pos0.feesPaid + fee }
  if isYes then
      if isBuy then
        if 0 ≤ pos.netContracts then
          let totalCost := pos.avgEntryPrice * pos.netContracts + price * contracts
          let net' := pos.netContracts + contracts
          ({ pos with netContracts := net',
                      avgEntryPrice := if net' = 0 then 0 else totalCost / net',
                      totalBought := pos.totalBought + contracts }, 0)
        else
          let closing := min contracts |pos.netContracts|
          let pnl := (pos.avgEntryPrice - price) * closing
          let net' := pos.netContracts + contracts
          ({ pos with realizedPnl := pos.realizedPnl + (pnl - fee),
                      netContracts := net',
                      avgEntryPrice := if 0 < net' then price else pos.avgEntryPrice,
                      totalBought := pos.totalBought + contracts }, pnl - fee)
      else
        if 0 < pos.netContracts then
          let closing := min contracts pos.netContracts
          let pnl := (price - pos.avgEntryPrice) * closing
          ({ pos with realizedPnl := pos.realizedPnl + (pnl - fee),
                      netContracts := pos.netContracts - contracts,
                      totalSold := pos.totalSold + contracts }, pnl - fee)
        else
          if pos.netContracts < 0 then
            let totalCost := pos.avgEntryPrice * |pos.netContracts| + price * contracts
            let net' := pos.netContracts - contracts
            ({ pos with netContracts := net',
                        avgEntryPrice := totalCost / |net'|,
                        totalSold := pos.totalSold + contracts }, 0)
          else
            ({ pos with netContracts := pos.netContracts - contracts,
                        avgEntryPrice := price,
                        totalSold := pos.totalSold + contracts }, 0)
    else
      if isBuy then
        let yesEquiv := 1 - price
        let base :=
          if 0 < pos.netContracts then
            let closing := min contracts pos.netContracts
            let pnl := (yesEquiv - pos.avgEntryPrice) * closing
            ({ pos with realizedPnl := pos.realizedPnl + (pnl - fee) }, pnl - fee)
          else (pos, 0)
        let net' := base.1.netContracts - contracts
        ({ base.1 with netContracts := net',
                       avgEntryPrice := if net' < 0 then yesEquiv else base.1.avgEntryPrice,
                       totalSold := base.1.totalSold + contracts }, base.2)
      else
        let yesEquiv := 1 - price
        let net' := pos.netContracts + contracts
        ({ pos with netContracts := net',
                    avgEntryPrice := if 0 < net' then yesEquiv else pos.avgEntryPrice,
                    totalBought := pos.totalBought + contracts }, 0)

/-- The `TradeRecord` that `update_from_fill` appends for a fill. -/
def fillRecord (f : Fill) (strategy now : String) : TradeRecord :=
  { timestamp := now, ticker := f.ticker, side := f.side, action := f.action,
    contracts := f.count, priceDollars := f.priceDollars,
    feeDollars := fillFee f, isMaker := !f.isTaker, strategy := strategy }

/-- Embeds `PositionTracker.update_from_fill(fill, strategy)` — the single
mutation entry point of the ledger.  `now` stands for the
`datetime.now(timezone.utc).isoformat()` timestamp of the appended
`TradeRecord`. -/
def updateFromFill (t : PositionTracker) (f : Fill) (strategy now : String) :
    PositionTracker :=
  let step := fillStep (trackerPos t f.ticker) f
  { t with positions := upsertA t.positions f.ticker step.1,
           dailyPnl := t.dailyPnl + step.2,
           weeklyPnl := t.weeklyPnl + step.2,
           totalFeesPaid := t.totalFeesPaid + fillFee f,
           tradeHistory := t.tradeHistory ++ [fillRecord f strategy now] }

/-- Embeds `PositionTracker.get_net_exposure()`: Σ |net|·avg over non-flat
positions. -/
def getNetExposure (t : PositionTracker) : ℚ :=
  t.positions.foldl
    (fun acc kv =>
      if kv.2.netContracts ≠ 0 then acc + |(kv.2.netContracts : ℚ)| * kv.2.avgEntryPrice
      else acc) 0

/-- Embeds `PositionTracker.get_net_position(ticker)`. -/
def getNetPosition (t : PositionTracker) (ticker : String) : ℤ :=
  ((findA t.positions ticker).map (·.netContracts)).getD 0

/-- Embeds `sub.isInfix of s` as executable character-list search (Python's
`sub in s` substring test). -/
def containsSeg (s sub : String) : Bool :=
  go s.data sub.data
where
  go : List Char → List Char → Bool
    | hay, needle =>
      if List.isPrefixOf needle hay then true
      else match hay with
        | [] => false
        | _ :: rest => go rest needle

/-- Embeds `PositionTracker.get_event_exposure(event_ticker)`: Σ |net|·avg over
non-flat positions whose ticker contains the event ticker. -/
def getEventExposure (t : PositionTracker) (eventTicker : String) : ℚ :=
  t.positions.foldl
    (fun acc kv =>
      if containsSeg kv.1 eventTicker ∧ kv.2.netContracts ≠ 0 then
        acc + |(kv.2.netContracts : ℚ)| * kv.2.avgEntryPrice
      else acc) 0

/-- The `daily_pnl` property: `_check_daily_reset()` zeroes the counter
lazily on the first read after a UTC date rollover, then the current
value is returned.  `today` stands for
`datetime.now(timezone.utc).strftime("%Y-%m-%d")`. -/
def dailyPnlRead (today : String) (t : PositionTracker) : ℚ × PositionTracker :=
  if today ≠ t.dailyResetDate then
    (0, { t with dailyPnl := 0, dailyResetDate := today })
  else (t.dailyPnl, t)

/- ------------------------------------------------------------------
   Spec-side characterization used by the amended claim C1: which fills
   realize trading P&L, and how much.
   ------------------------------------------------------------------ -/

/-- Whether a fill lands in one of `update_from_fill`'s three
P&L-realizing branches: a YES buy against a short, a YES sell against a
long, or a NO buy against a long. -/
def fillRealizes (pos : PositionState) (f : Fill) : Bool :=
  (f.side == "yes" && f.action == "buy" && decide (pos.netContracts < 0)) ||
  (f.side == "yes" && !(f.action == "buy") && decide (0 < pos.netContracts)) ||
  (!(f.side == "yes") && f.action == "buy" && decide (0 < pos.netContracts))

/-- The trading P&L a fill realizes against the current position (before
the fee), on the `min(count, |net|)` closing portion. -/
def closedPnl (pos : PositionState) (f : Fill) : ℚ :=
  if f.side = "yes" then
    if f.action = "buy" then
      (pos.avgEntryPrice - f.priceDollars) * (min f.count |pos.netContracts| : ℤ)
    else
      (f.priceDollars - pos.avgEntryPrice) * (min f.count pos.netContracts : ℤ)
  else
    ((1 - f.priceDollars) - pos.avgEntryPrice) * (min f.count pos.netContracts : ℤ)

/-- The amount `update_from_fill` adds to realized P&L and to the daily
and weekly accumulators: `pnl - fee` when the fill realizes P&L, zero
otherwise. -/
def pnlFeeDelta (pos : PositionState) (f : Fill) : ℚ :=
  if fillRealizes pos f then closedPnl pos f - fillFee f else 0

/- ------------------------------------------------------------------
   src/data/orderbook.py
   ------------------------------------------------------------------ -/

/-- Embeds `LocalOrderBook`: per-market YES and NO bid ladders, each a list of
`[price_dollars, quantity]` levels kept sorted descending by price. -/
structure LocalOrderBook where
  ticker : String := ""
  yesBids : List (ℚ × ℚ) := []
  noBids : List (ℚ × ℚ) := []
deriving DecidableEq, Repr

/-- The `OrderBookManager._books` dict: ticker → book. -/
abbrev OrderBooks := List (String × LocalOrderBook)

/-- Python `bids.sort(key=lambda x: x[0], reverse=True)`: a stable sort,
descending by price. -/
def sortBidsDesc (bids : List (ℚ × ℚ)) : List (ℚ × ℚ) :=
  bids.mergeSort (fun a b => decide (b.1 ≤ a.1))

/-- The `_apply_level` match test: an existing level matches the delta
price when `abs(level[0] - price) < 0.001`. -/
def levelMatches (l : ℚ × ℚ) (price : ℚ) : Bool := decide (|l.1 - price| < 1/1000)

/-- The scan inside `_apply_level`: find the first level matching the
delta price and remove it (`qty ≤ 0`) or overwrite its quantity;
`none` when no level matches. -/
def applyLevelLoop (price qty : ℚ) : List (ℚ × ℚ) → Option (List (ℚ × ℚ))
  | [] => none
  | l :: rest =>
    if levelMatches l price then
      some (if qty ≤ 0 then rest else (l.1, qty) :: rest)
    else
      match applyLevelLoop price qty rest with
      | some rest' => some (l :: rest')
      | none => none

/-- Embeds `OrderBookManager._apply_level(bids, price, quantity)`: update the
first matching level in place, or append-and-resort when no level matches
and the quantity is positive. -/
def applyLevel (bids : List (ℚ × ℚ)) (price qty : ℚ) : List (ℚ × ℚ) :=
  match applyLevelLoop price qty bids with
  | some bids' => bids'
  | none => if 0 < qty then sortBidsDesc (bids ++ [(price, qty)]) else bids

/-- Embeds `OrderBookManager.update_from_delta(ticker, delta)`: create the book
lazily if absent, then apply each YES-side and NO-side level change. -/
def updateFromDelta (books : OrderBooks) (ticker : String)
    (deltaYes deltaNo : List (ℚ × ℚ)) : OrderBooks :=
  let book := (findA books ticker).getD { ticker := ticker }
  let book := { book with
    yesBids := deltaYes.foldl (fun b (l : ℚ × ℚ) => applyLevel b l.1 l.2) book.yesBids }
  let book := { book with
    noBids := deltaNo.foldl (fun b (l : ℚ × ℚ) => applyLevel b l.1 l.2) book.noBids }
  upsertA books ticker book

/-- Embeds `OrderBookManager.get_best_yes_bid(ticker)`. -/
def getBestYesBid (books : OrderBooks) (ticker : String) : Option (ℚ × ℤ) :=
  match findA books ticker with
  | none => none
  | some b =>
    match b.yesBids with
    | [] => none
    | l :: _ => some (l.1, pyTrunc l.2)

/-- Embeds `OrderBookManager.get_best_yes_ask(ticker)`:
`YES ask = round(1.00 - best NO bid, 2)`, quantity from the NO side. -/
def getBestYesAsk (books : OrderBooks) (ticker : String) : Option (ℚ × ℤ) :=
  match findA books ticker with
  | none => none
  | some b =>
    match b.noBids with
    | [] => none
    | l :: _ => some (pyRound (1 - l.1) 2, pyTrunc l.2)

/-- Embeds `OrderBookManager.get_best_no_ask(ticker)`:
`NO ask = round(1.00 - best YES bid, 2)`. -/
def getBestNoAsk (books : OrderBooks) (ticker : String) : Option (ℚ × ℤ) :=
  match findA books ticker with
  | none => none
  | some b =>
    match b.yesBids with
    | [] => none
    | l :: _ => some (pyRound (1 - l.1) 2, pyTrunc l.2)

/-- Embeds `OrderBookManager.get_spread(ticker)`:
`round(yes_ask - yes_bid, 4)`, or `None` when either side is missing. -/
def getSpread (books : OrderBooks) (ticker : String) : Option ℚ :=
  match getBestYesBid books ticker, getBestYesAsk books ticker with
  | some bid, some ask => some (pyRound (ask.1 - bid.1) 4)
  | _, _ => none

/-- Embeds `OrderBookManager.get_depth(ticker, side, levels)`: top levels of a
side; `[]` for an unknown ticker; `ValueError` (modelled as
`Except.error`) for an unknown side string on a stored book. -/
def getDepth (books : OrderBooks) (ticker side : String) (levels : ℕ) :
    Except String (List (ℚ × ℤ)) :=
  match findA books ticker with
  | none => .ok []
  | some b =>
    if side = "yes_bid" then
      .ok ((b.yesBids.take levels).map (fun r => (r.1, pyTrunc r.2)))
    else if side = "no_bid" then
      .ok ((b.noBids.take levels).map (fun r => (r.1, pyTrunc r.2)))
    else if side = "yes_ask" then
      .ok ((b.noBids.take levels).map (fun r => (pyRound (1 - r.1) 2, pyTrunc r.2)))
    else if side = "no_ask" then
      .ok ((b.yesBids.take levels).map (fun r => (pyRound (1 - r.1) 2, pyTrunc r.2)))
    else .error ("Unknown side: " ++ side)

/-- Embeds `OrderBookManager.get_total_volume_at_price(ticker, side, price)`:
sum of the quantities at levels within 0.001 of the (side-converted)
price; `0` for an unknown ticker or an unknown side string. -/
def getTotalVolumeAtPrice (books : OrderBooks) (ticker side : String)
    (price : ℚ) : ℤ :=
  match findA books ticker with
  | none => 0
  | some b =>
    let sel : Option (List (ℚ × ℚ) × ℚ) :=
      if side = "yes_bid" then some (b.yesBids, price)
      else if side = "no_bid" then some (b.noBids, price)
      else if side = "yes_ask" then some (b.noBids, pyRound (1 - price) 2)
      else if side = "no_ask" then some (b.yesBids, pyRound (1 - price) 2)
      else none
    match sel with
    | none => 0
    | some (bids, p) =>
      bids.foldl (fun acc l => if |l.1 - p| < 1/1000 then acc + pyTrunc l.2 else acc) 0

/- The five queries as explicit state transformers (method call on the
manager returning the result and the `_books` store afterwards); the
Python bodies contain no assignment, so each returns the store as it
received it. -/

/-- Embeds `get_best_yes_bid` with the store it leaves behind. -/
def getBestYesBidS (books : OrderBooks) (ticker : String) :
    Option (ℚ × ℤ) × OrderBooks := (getBestYesBid books ticker, books)

/-- Embeds `get_best_yes_ask` with the store it leaves behind. -/
def getBestYesAskS (books : OrderBooks) (ticker : String) :
    Option (ℚ × ℤ) × OrderBooks := (getBestYesAsk books ticker, books)

/-- Embeds `get_best_no_ask` with the store it leaves behind. -/
def getBestNoAskS (books : OrderBooks) (ticker : String) :
    Option (ℚ × ℤ) × OrderBooks := (getBestNoAsk books ticker, books)

/-- Embeds `get_spread` with the store it leaves behind. -/
def getSpreadS (books : OrderBooks) (ticker : String) :
    Option ℚ × OrderBooks := (getSpread books ticker, books)

/-- Embeds `get_depth` with the store it leaves behind. -/
def getDepthS (books : OrderBooks) (ticker side : String) (levels : ℕ) :
    Except String (List (ℚ × ℤ)) × OrderBooks :=
  (getDepth books ticker side levels, books)

/-- Embeds `get_total_volume_at_price` with the store it leaves behind. -/
def getTotalVolumeAtPriceS (books : OrderBooks) (ticker side : String)
    (price : ℚ) : ℤ × OrderBooks := (getTotalVolumeAtPrice books ticker side price, books)

/- ------------------------------------------------------------------
   src/paper_trading/paper_engine.py
   ------------------------------------------------------------------ -/

/-- The slice of `CreateOrderRequest` (`src/kalshi/models.py`) that
`PaperEngine.try_fill` reads; `client_order_id`, `type`, `time_in_force`,
`buy_max_cost` and `cancel_order_on_pause` are never consulted by the
paper engine. -/
structure CreateOrderRequest where
  ticker : String
  side : String
  action : String
  count : ℤ
  yesPrice : Option ℤ := none
  noPrice : Option ℤ := none
  postOnly : Bool := false
deriving DecidableEq, Repr

/-- Embeds `RestingPaperOrder`: a maker order waiting in the simulated queue. -/
structure RestingPaperOrder where
  orderId : String
  ticker : String
  side : String
  action : String
  price : ℚ
  count : ℤ
  filled : ℤ := 0
  queueAhead : ℤ := 0
  createdAt : ℚ := 0
deriving DecidableEq, Repr

/-- Embeds `PaperEngine` state: emitted fills, the fill counter, the resting
maker orders (insertion-ordered, like the Python dict), and the stats
counters.  The fill callback is external and not modelled. -/
structure PaperEngine where
  fills : List Fill := []
  fillCount : ℤ := 0
  resting : List RestingPaperOrder := []
  totalMakerPlaced : ℤ := 0
  totalMakerFilled : ℤ := 0
  totalMakerExpired : ℤ := 0
  totalMakerCancelled : ℤ := 0
deriving DecidableEq, Repr

/-- Embeds `PaperEngine._create_fill`: build the `Fill` object for an execution
at `fill_price` dollars (`int(fill_price * 100)` cents on the traded
side, `100 - cents` on the other side). -/
def mkFill (ticker side action : String) (count : ℤ) (fillPrice : ℚ)
    (isTaker : Bool) : Fill :=
  let cents := pyTrunc (fillPrice * 100)
  { ticker := ticker, side := side, action := action, count := count,
    yesPrice := if side = "yes" then cents else 100 - cents,
    noPrice := if side = "no" then cents else 100 - cents,
    isTaker := isTaker }

/-- Embeds `PaperEngine._get_taker_fill_price`: the best opposing price when the
requested price crosses it (buy: price ≥ ask, with the ask required
positive; sell: price ≤ bid), else `None`. -/
def getTakerFillPrice (books : OrderBooks) (ticker side action : String)
    (orderPrice : ℚ) : Option ℚ :=
  if side = "yes" ∧ action = "buy" then
    match getBestYesAsk books ticker with
    | some ba => if 0 < ba.1 ∧ ba.1 ≤ orderPrice then some ba.1 else none
    | none => none
  else if side = "yes" ∧ action = "sell" then
    match getBestYesBid books ticker with
    | some bb => if orderPrice ≤ bb.1 then some bb.1 else none
    | none => none
  else if side = "no" ∧ action = "buy" then
    match getBestNoAsk books ticker with
    | some ba => if 0 < ba.1 ∧ ba.1 ≤ orderPrice then some ba.1 else none
    | none => none
  else if side = "no" ∧ action = "sell" then
    match findA books ticker with
    | some b =>
      match b.noBids with
      | [] => none
      | bb :: _ => if orderPrice ≤ bb.1 then some bb.1 else none
    | none => none
  else none

/-- Embeds `PaperEngine._estimate_queue_position`: displayed depth at the
order's own price level. -/
def estimateQueuePosition (books : OrderBooks) (ticker side action : String)
    (price : ℚ) : ℤ :=
  if action = "buy" then
    if side = "yes" then getTotalVolumeAtPrice books ticker "yes_bid" price
    else getTotalVolumeAtPrice books ticker "no_bid" price
  else
    if side = "yes" then getTotalVolumeAtPrice books ticker "yes_ask" price
    else getTotalVolumeAtPrice books ticker "no_ask" price

/-- Embeds `PaperEngine.try_fill(order)`: taker orders fill immediately at the
best opposing price or return `None`; maker orders join the resting queue
and return `None`.  `oid` stands for the generated uuid and `nowClock`
for `time.time()`. -/
def tryFill (e : PaperEngine) (books : OrderBooks) (order : CreateOrderRequest)
    (oid : String) (nowClock : ℚ) : Option Fill × PaperEngine :=
  let priceCents := if order.side = "yes" then order.yesPrice else order.noPrice
  match priceCents with
  | none => (none, e)
  | some pc =>
    if pc ≤ 0 then (none, e)
    else
      let price := (pc : ℚ) / 100
      if !order.postOnly then
        match getTakerFillPrice books order.ticker order.side order.action price with
        | none => (none, e)
        | some fp =>
          let fill := mkFill order.ticker order.side order.action order.count fp true
          (some fill,
           { e with fills := e.fills ++ [fill], fillCount := e.fillCount + 1 })
      else
        let qa := estimateQueuePosition books order.ticker order.side
          order.action price
        let ro : RestingPaperOrder :=
          { orderId := oid, ticker := order.ticker, side := order.side,
            action := order.action, price := price, count := order.count,
            queueAhead := qa, createdAt := nowClock }
        (none, { e with resting := e.resting ++ [ro],
                        totalMakerPlaced := e.totalMakerPlaced + 1 })

/-- Embeds `PaperEngine._trade_matches_order`: whether a stream trade would fill
a resting paper order (same side, price within half a cent or
through the order's limit). -/
def tradeMatchesOrder (o : RestingPaperOrder) (tradeSide : String)
    (tradePrice : ℚ) : Bool :=
  if o.action = "buy" then
    (o.side == tradeSide && decide (|tradePrice - o.price| < 5/1000)) ||
    (o.side == tradeSide && decide (tradePrice ≤ o.price))
  else if o.action = "sell" then
    (o.side == tradeSide && decide (|tradePrice - o.price| < 5/1000)) ||
    (o.side == tradeSide && decide (o.price ≤ tradePrice))
  else false

/-- The loop of `PaperEngine.process_trade` over the resting orders in
registration order: drain `queue_ahead`, fill with the remaining traded
volume, drop fully filled orders.  Returns the leftover volume, the
surviving orders, the emitted maker fills, and the number of fully filled
(removed) orders. -/
def processLoop (ticker side : String) (tradePrice : ℚ) :
    ℤ → List RestingPaperOrder → ℤ × List RestingPaperOrder × List Fill × ℤ
  | rv, [] => (rv, [], [], 0)
  | rv, o :: rest =>
    if rv ≤ 0 then (rv, o :: rest, [], 0)
    else if o.ticker ≠ ticker then
      let r := processLoop ticker side tradePrice rv rest
      (r.1, o :: r.2.1, r.2.2.1, r.2.2.2)
    else if o.count ≤ o.filled then
      let r := processLoop ticker side tradePrice rv rest
      (r.1, o :: r.2.1, r.2.2.1, r.2.2.2)
    else if !(tradeMatchesOrder o side tradePrice) then
      let r := processLoop ticker side tradePrice rv rest
      (r.1, o :: r.2.1, r.2.2.1, r.2.2.2)
    else
      let consumed := if 0 < o.queueAhead then min rv o.queueAhead else 0
      let o1 := { o with queueAhead := o.queueAhead - consumed }
      let rv1 := rv - consumed
      if o1.queueAhead ≤ 0 ∧ 0 < rv1 then
        let canFill := min rv1 (o1.count - o1.filled)
        let o2 := { o1 with filled := o1.filled + canFill }
        let rv2 := rv1 - canFill
        let fill := mkFill o2.ticker o2.side o2.action canFill o2.price false
        let r := processLoop ticker side tradePrice rv2 rest
        if o2.count ≤ o2.filled then
          (r.1, r.2.1, fill :: r.2.2.1, r.2.2.2 + 1)
        else
          (r.1, o2 :: r.2.1, fill :: r.2.2.1, r.2.2.2)
      else
        let r := processLoop ticker side tradePrice rv1 rest
        (r.1, o1 :: r.2.1, r.2.2.1, r.2.2.2)

/-- Embeds `PaperEngine.process_trade(ticker, side, price_cents, count)`. -/
def processTrade (e : PaperEngine) (ticker side : String) (priceCents count : ℤ) :
    PaperEngine × List Fill :=
  let tradePrice := (priceCents : ℚ) / 100
  let r := processLoop ticker side tradePrice count e.resting
  ({ e with resting := r.2.1,
            fills := e.fills ++ r.2.2.1,
            fillCount := e.fillCount + r.2.2.1.length,
            totalMakerFilled := e.totalMakerFilled + r.2.2.2 }, r.2.2.1)

/-- A sequence of `process_trade` calls, each a
`(ticker, side, price_cents, count)` stream event. -/
def processTrades (e : PaperEngine) : List (String × String × ℤ × ℤ) → PaperEngine
  | [] => e
  | (tk, sd, pc, ct) :: rest => processTrades (processTrade e tk sd pc ct).1 rest

/-- The C3 resting-order invariant: `0 ≤ filled ≤ count`
(equivalently `remaining = count - filled ≥ 0`). -/
def orderOK (o : RestingPaperOrder) : Prop := 0 ≤ o.filled ∧ o.filled ≤ o.count

/-- Spec-side notion for C7: the best opposing price for an order
(buy: the derived ask of the order's side; sell: the best bid of the
order's side). -/
def bestOpposing (books : OrderBooks) (ticker side action : String) : Option ℚ :=
  if action = "buy" then
    if side = "yes" then (getBestYesAsk books ticker).map Prod.fst
    else (getBestNoAsk books ticker).map Prod.fst
  else
    if side = "yes" then (getBestYesBid books ticker).map Prod.fst
    else
      match findA books ticker with
      | some b => b.noBids.head?.map Prod.fst
      | none => none

/-- Spec-side notion for C7: the requested price crosses the best
opposing price (buy: price ≥ ask; sell: price ≤ bid). -/
def crossesAt (action : String) (orderPrice best : ℚ) : Bool :=
  if action = "buy" then decide (best ≤ orderPrice) else decide (orderPrice ≤ best)

/-- Well-formed book store: every stored price level lies on
`[0.01, 0.99]`. -/
def booksWF (books : OrderBooks) : Prop :=
  ∀ bk ∈ books, ∀ l ∈ bk.2.yesBids ++ bk.2.noBids, 1/100 ≤ l.1 ∧ l.1 ≤ 99/100

/- ------------------------------------------------------------------
   src/risk/risk_manager.py (limit percentages from src/config.py)
   ------------------------------------------------------------------ -/

/-- Embeds `MAX_SINGLE_TRADE_PCT = 0.10`. -/
def MAX_SINGLE_TRADE_PCT : ℚ := 0.10

/-- Embeds `MAX_PER_STRIKE_PCT = 0.15`. -/
def MAX_PER_STRIKE_PCT : ℚ := 0.15

/-- Embeds `MAX_PER_EVENT_PCT = 0.30`. -/
def MAX_PER_EVENT_PCT : ℚ := 0.30

/-- Embeds `MAX_TOTAL_EXPOSURE_PCT = 0.75`. -/
def MAX_TOTAL_EXPOSURE_PCT : ℚ := 0.75

/-- Embeds `CASH_BUFFER_PCT = 0.25`. -/
def CASH_BUFFER_PCT : ℚ := 0.25

/-- Embeds `DAILY_LOSS_LIMIT_PCT = 0.05`. -/
def DAILY_LOSS_LIMIT_PCT : ℚ := 0.05

/-- Embeds `WEEKLY_LOSS_LIMIT_PCT = 0.10`. -/
def WEEKLY_LOSS_LIMIT_PCT : ℚ := 0.10

/-- The slice of a strategy `TradeSignal` that `_check_signal` reads. -/
structure TradeSignal where
  ticker : String
  side : String
  action : String
  contracts : ℤ
  priceCents : ℤ
  edgeCents : ℚ := 0
deriving DecidableEq, Repr

/-- An open (resting/pending) order as seen through
`OrderManager.get_open_orders`: its ticker and `remaining_count`. -/
structure OpenOrderView where
  ticker : String
  remainingCount : ℤ
deriving DecidableEq, Repr

/-- Embeds `RiskManager` state: the tracker it reads, its own capital baseline,
the kill-switch/override/exchange flags, and the order-manager view
(`none` models `_order_manager is None`). -/
structure RiskManager where
  tracker : PositionTracker
  initialBalance : ℚ
  killSwitchActive : Bool := false
  manualOverride : Bool := false
  exchangeOpen : Bool := true
  openOrders : Option (List OpenOrderView) := none
deriving DecidableEq, Repr

/-- Python `s.split("-")` over the character list (executable stand-in
for `String.splitOn`, which does not reduce in the kernel). -/
def splitOnDash : List Char → List (List Char)
  | [] => [[]]
  | x :: rest =>
    match splitOnDash rest with
    | [] => [[]]
    | g :: gs => if x = '-' then [] :: g :: gs else (x :: g) :: gs

/-- Python `"-".join(groups)` over character lists. -/
def joinDash : List (List Char) → List Char
  | [] => []
  | [g] => g
  | g :: gs => g ++ '-' :: joinDash gs

/-- Embeds `RiskManager._extract_event_ticker`: the first two dash-separated
segments of a market ticker (`"-".join(ticker.split("-")[:2])`), or the
ticker itself when it has fewer than two segments. -/
def extractEventTicker (marketTicker : String) : String :=
  let parts := splitOnDash marketTicker.data
  if 2 ≤ parts.length then ⟨joinDash (parts.take 2)⟩ else marketTicker

/-- The rule a rejection names; the Python code formats each into an
f-string carrying the offending amounts. -/
inductive RejectReason where
  | noCapital
  | singleTrade
  | perStrike
  | perEvent
  | totalExposure
  | cashBuffer
  | dailyLoss
  | weeklyLoss
deriving DecidableEq, Repr

/-- The static skeleton of each rejection's human-readable message
(the Python code interpolates the concrete amounts). -/
def reasonText : RejectReason → String
  | .noCapital => "No capital available"
  | .singleTrade => "Single trade exceeds single-trade limit"
  | .perStrike => "Per-strike exposure exceeds limit"
  | .perEvent => "Per-event exposure exceeds limit"
  | .totalExposure => "Total exposure exceeds limit"
  | .cashBuffer => "Cash after trade below buffer requirement"
  | .dailyLoss => "Daily loss exceeds limit"
  | .weeklyLoss => "Weekly loss exceeds limit"

/-- Embeds `RiskManager._check_signal(signal)`: the capital guard followed by
the seven limit checks in order, returning the first rejection (or
`none`) together with the tracker as left by the lazy daily-P&L reset
that reading `daily_pnl` may perform. -/
def checkSignal (rm : RiskManager) (today : String) (s : TradeSignal) :
    Option RejectReason × PositionTracker :=
  let tradeCost := ((s.priceCents : ℚ) / 100) * s.contracts
  let capital := rm.initialBalance
  if capital ≤ 0 then (some .noCapital, rm.tracker)
  else if MAX_SINGLE_TRADE_PCT * capital < tradeCost then
    (some .singleTrade, rm.tracker)
  else
    let filledContracts := |getNetPosition rm.tracker s.ticker|
    let restingContracts : ℤ :=
      match rm.openOrders with
      | none => 0
      | some os =>
        (os.filter (fun o => o.ticker = s.ticker)).foldl
          (fun a o => a + o.remainingCount) 0
    let currentStrike := ((filledContracts + restingContracts : ℤ) : ℚ) *
      ((s.priceCents : ℚ) / 100)
    if MAX_PER_STRIKE_PCT * capital < currentStrike + tradeCost then
      (some .perStrike, rm.tracker)
    else
      let eventTicker := extractEventTicker s.ticker
      if eventTicker ≠ "" ∧
          MAX_PER_EVENT_PCT * capital <
            getEventExposure rm.tracker eventTicker + tradeCost then
        (some .perEvent, rm.tracker)
      else
        let currentTotal := getNetExposure rm.tracker
        if MAX_TOTAL_EXPOSURE_PCT * capital < currentTotal + tradeCost then
          (some .totalExposure, rm.tracker)
        else if capital - currentTotal - tradeCost < CASH_BUFFER_PCT * capital then
          (some .cashBuffer, rm.tracker)
        else
          let d := dailyPnlRead today rm.tracker
          if d.1 < -(DAILY_LOSS_LIMIT_PCT * capital) then (some .dailyLoss, d.2)
          else if d.2.weeklyPnl < -(WEEKLY_LOSS_LIMIT_PCT * capital) then
            (some .weeklyLoss, d.2)
          else (none, d.2)

/-- Embeds `RiskManager.check_kill_switch()`: sticky flag, manual override,
exchange closure, and the daily-loss trigger (which reads `daily_pnl`
only when the capital is positive, thanks to Python's short-circuit
`and`).  The best-effort cancel-all side effect on activation is
external to this state. -/
def checkKillSwitch (rm : RiskManager) (today : String) : Bool × RiskManager :=
  if rm.killSwitchActive then (true, rm)
  else if rm.manualOverride then (true, rm)
  else if !rm.exchangeOpen then (true, { rm with killSwitchActive := true })
  else if 0 < rm.initialBalance then
    let d := dailyPnlRead today rm.tracker
    if d.1 < -(DAILY_LOSS_LIMIT_PCT * rm.initialBalance) then
      (true, { rm with tracker := d.2, killSwitchActive := true })
    else (false, { rm with tracker := d.2 })
  else (false, rm)

/-- Embeds `RiskManager.reset_kill_switch()`. -/
def resetKillSwitch (rm : RiskManager) : RiskManager :=
  { rm with killSwitchActive := false }

/-- The approval loop of `filter_signals`: check each signal in order,
threading the tracker (whose daily counter a check may lazily reset), and
keep the approved ones in their original order. -/
def filterLoop (today : String) : RiskManager → List TradeSignal →
    List TradeSignal × RiskManager
  | rm, [] => ([], rm)
  | rm, s :: rest =>
    let c := checkSignal rm today s
    let rm' := { rm with tracker := c.2 }
    let r := filterLoop today rm' rest
    (if c.1 = none then s :: r.1 else r.1, r.2)

/-- Embeds `RiskManager.filter_signals(signals)`: everything is rejected while
the kill switch reports active; otherwise each signal runs through
`_check_signal` and approvals keep their relative order. -/
def filterSignals (rm : RiskManager) (today : String)
    (signals : List TradeSignal) : List TradeSignal × RiskManager :=
  let k := checkKillSwitch rm today
  if k.1 then ([], k.2) else filterLoop today k.2 signals

/- Spec-side formulation of C6: the seven rules, in the claim's order,
written from the spec's wording over the same tracker reads. -/

/-- The first violated rule of the claim's fixed seven-rule order, or
`none` when every rule passes. -/
def specFirstViolation (rm : RiskManager) (s : TradeSignal) :
    Option RejectReason :=
  let tradeCost := ((s.priceCents : ℚ) / 100) * s.contracts
  let capital := rm.initialBalance
  let filledContracts := |getNetPosition rm.tracker s.ticker|
  let restingContracts : ℤ :=
    match rm.openOrders with
    | none => 0
    | some os =>
      (os.filter (fun o => o.ticker = s.ticker)).foldl
        (fun a o => a + o.remainingCount) 0
  let strikeExposure := ((filledContracts + restingContracts : ℤ) : ℚ) *
    ((s.priceCents : ℚ) / 100) + tradeCost
  let eventTicker := extractEventTicker s.ticker
  if MAX_SINGLE_TRADE_PCT * capital < tradeCost then some .singleTrade
  else if MAX_PER_STRIKE_PCT * capital < strikeExposure then some .perStrike
  else if eventTicker ≠ "" ∧
      MAX_PER_EVENT_PCT * capital <
        getEventExposure rm.tracker eventTicker + tradeCost then some .perEvent
  else if MAX_TOTAL_EXPOSURE_PCT * capital <
      getNetExposure rm.tracker + tradeCost then some .totalExposure
  else if capital - getNetExposure rm.tracker - tradeCost <
      CASH_BUFFER_PCT * capital then some .cashBuffer
  else if rm.tracker.dailyPnl < -(DAILY_LOSS_LIMIT_PCT * capital) then
    some .dailyLoss
  else if rm.tracker.weeklyPnl < -(WEEKLY_LOSS_LIMIT_PCT * capital) then
    some .weeklyLoss
  else none

/- Concrete data used to evaluate the ledger on specific inputs. -/

/-- A risk manager with capital $10,000 and a daily P&L of -$520
(already on today's reset date). -/
def rmTrip : RiskManager :=
  { tracker := { dailyResetDate := "2026-02-14", dailyPnl := -520 },
    initialBalance := 10000 }

/-- A risk manager with zero capital and a clean tracker. -/
def rmZero : RiskManager :=
  { tracker := { dailyResetDate := "2026-02-14" }, initialBalance := 0 }

/-- A risk manager with capital $10,000 and a clean tracker. -/
def rmOK : RiskManager :=
  { tracker := { dailyResetDate := "2026-02-14" }, initialBalance := 10000 }

/-- A zero-contract signal at 50 cents (cost $0, passes every one of
the seven limit rules). -/
def sigZero : TradeSignal :=
  { ticker := "KXBTC-26FEB14-T70000", side := "yes", action := "buy",
    contracts := 0, priceCents := 50 }

/-- A 10-contract signal at 50 cents (cost $5). -/
def sigSmall : TradeSignal :=
  { ticker := "KXBTC-26FEB14-T70000", side := "yes", action := "buy",
    contracts := 10, priceCents := 50 }


/-- A fresh tracker with no positions and zeroed accumulators. -/
def emptyTracker : PositionTracker := {}

/-- A maker buy of 100 YES contracts at $0.85. -/
def fBuy85 : Fill :=
  { ticker := "T", side := "yes", action := "buy",
    count := 100, yesPrice := 85, noPrice := 15, isTaker := false }

/-- A maker sell of 100 YES contracts at the settlement price $1.00. -/
def fSell100 : Fill :=
  { ticker := "T", side := "yes", action := "sell",
    count := 100, yesPrice := 100, noPrice := 0, isTaker := false }

/-- A taker sell of 100 YES contracts at $0.90. -/
def fSell90 : Fill :=
  { ticker := "T", side := "yes", action := "sell",
    count := 100, yesPrice := 90, noPrice := 10, isTaker := true }

/-- A tracker holding a long position of 50 YES contracts at $0.40. -/
def longTracker : PositionTracker :=
  { positions := [("T", { ticker := "T", netContracts := 50, avgEntryPrice := 2/5 })] }

/-- A book store whose market "M" has two YES-bid levels 0.0005 above and
below $0.5005, both within the 0.001 matching tolerance of that price. -/
def cexBooks : OrderBooks :=
  [("M", { ticker := "M", yesBids := [(501/1000, 5), (1/2, 3)], noBids := [] })]

/-- A resting maker order for 10 contracts with 5 contracts queued ahead. -/
def exResting : RestingPaperOrder :=
  { orderId := "o1", ticker := "T", side := "yes", action := "buy",
    price := 1/2, count := 10, filled := 0, queueAhead := 5 }

/-- A second resting maker order on another market "U". -/
def exResting2 : RestingPaperOrder :=
  { orderId := "o2", ticker := "U", side := "yes", action := "buy",
    price := 1/2, count := 4, filled := 0, queueAhead := 0 }

/-- A paper engine holding `exResting` and `exResting2`. -/
def exEngine : PaperEngine := { resting := [exResting, exResting2] }

/-- Two stream trades at 50c on "T" whose volumes sum to 17, more than
the resting order's size of 10 plus its queue of 5. -/
def exTrades : List (String × String × ℤ × ℤ) :=
  [("T", "yes", 50, 8), ("T", "yes", 50, 9)]

/-- A well-formed book store for market "T": one YES bid at $0.40 and one
NO bid at $0.55 (so the derived YES ask is $0.45). -/
def exBooks : OrderBooks :=
  [("T", { ticker := "T", yesBids := [(40/100, 100)], noBids := [(55/100, 50)] })]

/-- A taker buy of 7 YES contracts at 50 cents. -/
def exOrder : CreateOrderRequest :=
  { ticker := "T", side := "yes", action := "buy", count := 7,
    yesPrice := some 50, noPrice := none, postOnly := false }

end KalshiTrader

open KalshiTrader

theorem ratFloor_eq (q : ℚ) : Rat.floor q = ⌊q⌋ := by
  rw [Rat.floor_def', Rat.floor_def]

theorem qceil_eq (q : ℚ) : qceil q = ⌈q⌉ := by
  rw [qceil, ratFloor_eq, Int.floor_neg, neg_neg]

/-- C5: for every `contracts > 0`, price in `[0.01, 0.99]` and maker flag,
`calculate_fee` returns `n/100` dollars where `n` is the least integer
number of cents that is ≥ `coeff·contracts·price·(1-price)·100 - 1e-9`
(the epsilon absorbing float drift) and ≥ 1 cent; and the four quoted
values hold: fee(100, 0.50, taker) = 1.75, fee(100, 0.95, taker) = 0.34,
fee(100, 0.95, maker) = 0.09, fee(1, 0.01, taker) = 0.01. -/
theorem calculate_fee_least_cent_multiple :
    (∀ (c : ℤ) (p : ℚ) (m : Bool), 0 < c → 1/100 ≤ p → p ≤ 99/100 →
      IsLeast {n : ℤ | 1 ≤ n ∧ rawFee c p m * 100 - feeEpsilon ≤ (n : ℚ)}
        (feeCents c p m) ∧
      calculate_fee c p m = (feeCents c p m : ℚ) / 100) ∧
    calculate_fee 100 (1/2) false = 175/100 ∧
    calculate_fee 100 (95/100) false = 34/100 ∧
    calculate_fee 100 (95/100) true = 9/100 ∧
    calculate_fee 1 (1/100) false = 1/100 := by
  refine ⟨fun c p m _ _ _ => ⟨⟨?_, ?_⟩, rfl⟩, by decide, by decide, by decide, by decide⟩
  · constructor
    · exact le_max_right _ _
    · calc rawFee c p m * 100 - feeEpsilon
          ≤ (⌈rawFee c p m * 100 - feeEpsilon⌉ : ℚ) := Int.le_ceil _
        _ ≤ ((feeCents c p m : ℤ) : ℚ) := by
            rw [feeCents, qceil_eq]
            exact_mod_cast le_max_left _ _
  · rintro n ⟨h1, h2⟩
    rw [feeCents, qceil_eq]
    exact max_le (Int.ceil_le.mpr h2) h1

/-- Witness for C5 at contracts = 100, price = 1/2, taker. -/
theorem calculate_fee_least_cent_multiple_witness :
    IsLeast {n : ℤ | 1 ≤ n ∧ rawFee 100 (1/2) false * 100 - feeEpsilon ≤ (n : ℚ)}
      (feeCents 100 (1/2) false) ∧
    calculate_fee 100 (1/2) false = (feeCents 100 (1/2) false : ℚ) / 100 :=
  calculate_fee_least_cent_multiple.1 100 (1/2) false (by decide) (by decide) (by decide)

theorem findA_upsertA {α : Type} (ps : List (String × α)) (k : String) (v : α) :
    findA (upsertA ps k v) k = some v := by
  induction ps with
  | nil => simp [upsertA, findA]
  | cons hd rest ih =>
    by_cases h : hd.1 = k
    · simp [upsertA, findA, h]
    · simp [upsertA, findA, h, ih]

theorem trackerPos_update (t : PositionTracker) (f : Fill) (s now : String) :
    trackerPos (updateFromFill t f s now) f.ticker =
      (fillStep (trackerPos t f.ticker) f).1 := by
  simp [updateFromFill, trackerPos, findA_upsertA]

theorem fillStep_spec (pos : PositionState) (f : Fill) :
    (fillStep pos f).1.realizedPnl = pos.realizedPnl + pnlFeeDelta pos f ∧
    (fillStep pos f).2 = pnlFeeDelta pos f ∧
    (fillStep pos f).1.feesPaid = pos.feesPaid + fillFee f := by
  by_cases hy : f.side = "yes" <;> by_cases hb : f.action = "buy" <;>
    rcases lt_trichotomy pos.netContracts 0 with hn | hn | hn
  · simp [fillStep, pnlFeeDelta, fillRealizes, closedPnl, fillFee, hy, hb, hn,
          not_le.mpr hn]
  · simp [fillStep, pnlFeeDelta, fillRealizes, closedPnl, fillFee, hy, hb, hn]
  · simp [fillStep, pnlFeeDelta, fillRealizes, closedPnl, fillFee, hy, hb,
          hn, hn.le, hn.not_lt, ne_of_gt hn]
  · simp [fillStep, pnlFeeDelta, fillRealizes, closedPnl, fillFee, hy, hb, hn,
          hn.not_lt, hn.le]
  · simp [fillStep, pnlFeeDelta, fillRealizes, closedPnl, fillFee, hy, hb, hn]
  · simp [fillStep, pnlFeeDelta, fillRealizes, closedPnl, fillFee, hy, hb, hn,
          hn.ne.symm, not_lt.mpr hn.le]
  · simp [fillStep, pnlFeeDelta, fillRealizes, closedPnl, fillFee, hy, hb, hn,
          hn.not_lt]
  · simp [fillStep, pnlFeeDelta, fillRealizes, closedPnl, fillFee, hy, hb, hn]
  · simp [fillStep, pnlFeeDelta, fillRealizes, closedPnl, fillFee, hy, hb, hn,
          not_lt.mpr hn.le]
  · simp [fillStep, pnlFeeDelta, fillRealizes, closedPnl, fillFee, hy, hb, hn]
  · simp [fillStep, pnlFeeDelta, fillRealizes, closedPnl, fillFee, hy, hb, hn]
  · simp [fillStep, pnlFeeDelta, fillRealizes, closedPnl, fillFee, hy, hb, hn]

/-- C1 (counterexample): the claim "after every `update_from_fill` call,
realized P&L equals its prior value plus the fill's trading P&L (zero for
a purely opening fill) minus the fill's fee" fails on a purely opening
fill: buying 100 YES at $0.85 (maker, fee $0.23) from a flat book leaves
realized P&L at $0.00, not $-0.23; the daily accumulator likewise stays
at $0.00. -/
theorem opening_fill_fee_not_deducted :
    fillFee fBuy85 = 23/100 ∧
    (trackerPos (updateFromFill emptyTracker fBuy85 "" "ts") "T").realizedPnl = 0 ∧
    (updateFromFill emptyTracker fBuy85 "" "ts").dailyPnl = 0 ∧
    ¬ ((trackerPos (updateFromFill emptyTracker fBuy85 "" "ts") "T").realizedPnl =
        (trackerPos emptyTracker "T").realizedPnl + 0 - fillFee fBuy85) := by
  refine ⟨by decide, by decide, by decide, ?_⟩
  intro h
  rw [show (trackerPos (updateFromFill emptyTracker fBuy85 "" "ts") "T").realizedPnl
        = 0 by decide, show (trackerPos emptyTracker "T").realizedPnl = 0 by decide,
      show fillFee fBuy85 = 23/100 by decide] at h
  norm_num at h

/-- C1 (amended): `update_from_fill` subtracts the fill's fee from
realized P&L and from the daily/weekly accumulators only when the fill
realizes trading P&L (a YES buy against a short, a YES sell against a
long, or a NO buy against a long), in which case each of the three grows
by `pnl - fee`; on all other (purely opening) fills the three accumulators
are unchanged and the fee is recorded only in `fees_paid`; an immutable
`TradeRecord` is appended in every case. -/
theorem update_from_fill_fee_accounting (t : PositionTracker) (f : Fill)
    (strategy now : String) :
    (trackerPos (updateFromFill t f strategy now) f.ticker).realizedPnl =
      (trackerPos t f.ticker).realizedPnl + pnlFeeDelta (trackerPos t f.ticker) f ∧
    (updateFromFill t f strategy now).dailyPnl =
      t.dailyPnl + pnlFeeDelta (trackerPos t f.ticker) f ∧
    (updateFromFill t f strategy now).weeklyPnl =
      t.weeklyPnl + pnlFeeDelta (trackerPos t f.ticker) f ∧
    (trackerPos (updateFromFill t f strategy now) f.ticker).feesPaid =
      (trackerPos t f.ticker).feesPaid + fillFee f ∧
    (updateFromFill t f strategy now).tradeHistory =
      t.tradeHistory ++ [fillRecord f strategy now] := by
  obtain ⟨h1, h2, h3⟩ := fillStep_spec (trackerPos t f.ticker) f
  refine ⟨?_, ?_, ?_, ?_, ?_⟩
  · rw [trackerPos_update]; exact h1
  · show t.dailyPnl + (fillStep (trackerPos t f.ticker) f).2 = _
    rw [h2]
  · show t.weeklyPnl + (fillStep (trackerPos t f.ticker) f).2 = _
    rw [h2]
  · rw [trackerPos_update]; exact h3
  · rfl

/-- C2 (counterexample): buying 100 YES at $0.85 (maker) and selling the
100 contracts at the settlement price $1.00 through `update_from_fill`
yields realized P&L $14.99, which is not within $0.01 of the claimed
$14.77 = 15.00 - fee(100, 0.85, maker). -/
theorem round_trip_realized_pnl_not_14_77 :
    (trackerPos (updateFromFill (updateFromFill emptyTracker fBuy85 "" "a")
        fSell100 "" "b") "T").realizedPnl = 1499/100 ∧
    ¬ |(trackerPos (updateFromFill (updateFromFill emptyTracker fBuy85 "" "a")
        fSell100 "" "b") "T").realizedPnl - 1477/100| ≤ 1/100 := by
  constructor
  · decide
  · rw [show (trackerPos (updateFromFill (updateFromFill emptyTracker fBuy85 "" "a")
        fSell100 "" "b") "T").realizedPnl = 1499/100 by decide,
        show |(1499:ℚ)/100 - 1477/100| = 22/100 by
          rw [abs_of_nonneg] <;> norm_num]
    norm_num

/-- C2 (amended): the round trip buy 100 YES at $0.85 (maker) then sell
100 YES at the settlement price $1.00 yields realized P&L
$15.00 - $0.01 = $14.99 (within ±0.01): the $0.23 buy fee is never
deducted from realized P&L (it is recorded only in `fees_paid`, which
ends at $0.24), and the sell at $1.00 incurs the $0.01 minimum fee. -/
theorem round_trip_realized_pnl_14_99 :
    (trackerPos (updateFromFill (updateFromFill emptyTracker fBuy85 "" "a")
        fSell100 "" "b") "T").realizedPnl = 15 - 1/100 ∧
    (trackerPos (updateFromFill (updateFromFill emptyTracker fBuy85 "" "a")
        fSell100 "" "b") "T").feesPaid = 24/100 ∧
    |(trackerPos (updateFromFill (updateFromFill emptyTracker fBuy85 "" "a")
        fSell100 "" "b") "T").realizedPnl - (15 - 1/100)| ≤ 1/100 := by
  refine ⟨by decide, by decide, ?_⟩
  rw [show (trackerPos (updateFromFill (updateFromFill emptyTracker fBuy85 "" "a")
        fSell100 "" "b") "T").realizedPnl = 15 - 1/100 by decide]
  norm_num

/-- C10: a YES sell whose count exceeds the current positive net position
realizes P&L only on the `min(count, net)` closing portion, sets
`net_contracts` to `net - count` (now negative), and leaves
`avg_entry_price` unchanged at the previous long's weighted average — the
resulting short's cost basis is not set to the sell price. -/
theorem sell_through_zero_keeps_cost_basis (t : PositionTracker) (f : Fill)
    (strategy now : String) (hside : f.side = "yes") (hact : f.action = "sell")
    (hlong : 0 < (trackerPos t f.ticker).netContracts)
    (hover : (trackerPos t f.ticker).netContracts < f.count) :
    (trackerPos (updateFromFill t f strategy now) f.ticker).netContracts =
      (trackerPos t f.ticker).netContracts - f.count ∧
    (trackerPos (updateFromFill t f strategy now) f.ticker).netContracts < 0 ∧
    (trackerPos (updateFromFill t f strategy now) f.ticker).avgEntryPrice =
      (trackerPos t f.ticker).avgEntryPrice ∧
    (trackerPos (updateFromFill t f strategy now) f.ticker).realizedPnl =
      (trackerPos t f.ticker).realizedPnl +
        ((f.priceDollars - (trackerPos t f.ticker).avgEntryPrice) *
          (min f.count (trackerPos t f.ticker).netContracts : ℤ) - fillFee f) := by
  rw [trackerPos_update]
  have hnb : ¬ (f.action = "buy") := by rw [hact]; decide
  refine ⟨?_, ?_, ?_, ?_⟩ <;>
    simp [fillStep, fillFee, hside, hnb, hlong] <;> omega

/-- Witness for C10: selling 100 YES at $0.90 (taker) against a long of
50 YES contracts at $0.40. -/
theorem sell_through_zero_keeps_cost_basis_witness :
    (trackerPos (updateFromFill longTracker fSell90 "" "ts") "T").netContracts =
      (trackerPos longTracker "T").netContracts - fSell90.count ∧
    (trackerPos (updateFromFill longTracker fSell90 "" "ts") "T").netContracts < 0 ∧
    (trackerPos (updateFromFill longTracker fSell90 "" "ts") "T").avgEntryPrice =
      (trackerPos longTracker "T").avgEntryPrice ∧
    (trackerPos (updateFromFill longTracker fSell90 "" "ts") "T").realizedPnl =
      (trackerPos longTracker "T").realizedPnl +
        ((fSell90.priceDollars - (trackerPos longTracker "T").avgEntryPrice) *
          (min fSell90.count (trackerPos longTracker "T").netContracts : ℤ) -
            fillFee fSell90) :=
  sell_through_zero_keeps_cost_basis longTracker fSell90 "" "ts"
    (by decide) (by decide) (by decide) (by decide)

theorem applyLevelLoop_none_iff (p q : ℚ) (bids : List (ℚ × ℚ)) :
    applyLevelLoop p q bids = none ↔ ∀ l ∈ bids, levelMatches l p = false := by
  induction bids with
  | nil => simp [applyLevelLoop]
  | cons hd rest ih =>
    by_cases hm : levelMatches hd p
    · simp [applyLevelLoop, hm]
    · simp only [applyLevelLoop, hm, Bool.false_eq_true, if_false]
      constructor
      · intro h
        cases hrec : applyLevelLoop p q rest with
        | none =>
          intro l hl
          rcases List.mem_cons.mp hl with rfl | hl'
          · simpa using hm
          · exact (ih.mp hrec) l hl'
        | some rest' => rw [hrec] at h; simp at h
      · intro h
        cases hrec : applyLevelLoop p q rest with
        | none => rfl
        | some rest' =>
          exfalso
          have : applyLevelLoop p q rest = none :=
            ih.mpr (fun l hl => h l (List.mem_cons_of_mem _ hl))
          rw [hrec] at this; simp at this

theorem applyLevelLoop_pos_idem (p q : ℚ) (hq : 0 < q) (bids bids' : List (ℚ × ℚ))
    (h : applyLevelLoop p q bids = some bids') :
    applyLevelLoop p q bids' = some bids' := by
  induction bids generalizing bids' with
  | nil => simp [applyLevelLoop] at h
  | cons hd rest ih =>
    by_cases hm : levelMatches hd p
    · rw [applyLevelLoop, if_pos hm, if_neg (not_le.mpr hq)] at h
      obtain rfl : (hd.1, q) :: rest = bids' := by simpa using h
      have hm' : levelMatches (hd.1, q) p = true := hm
      rw [applyLevelLoop, if_pos hm', if_neg (not_le.mpr hq)]
    · rw [applyLevelLoop, if_neg (by simpa using hm)] at h
      cases hrec : applyLevelLoop p q rest with
      | none => rw [hrec] at h; simp at h
      | some rest' =>
        rw [hrec] at h
        obtain rfl : hd :: rest' = bids' := by simpa using h
        rw [applyLevelLoop, if_neg (by simpa using hm), ih rest' hrec]

theorem applyLevelLoop_stable (p q : ℚ) (hq : 0 < q) (bids : List (ℚ × ℚ))
    (hall : ∀ l ∈ bids, levelMatches l p = true → l = (l.1, q))
    (hex : ∃ l ∈ bids, levelMatches l p = true) :
    applyLevelLoop p q bids = some bids := by
  induction bids with
  | nil => simp at hex
  | cons hd rest ih =>
    by_cases hm : levelMatches hd p
    · rw [applyLevelLoop, if_pos hm, if_neg (not_le.mpr hq)]
      have := hall hd (List.mem_cons_self _ _) hm
      rw [← this]
    · rw [applyLevelLoop, if_neg (by simpa using hm)]
      have hex' : ∃ l ∈ rest, levelMatches l p = true := by
        rcases hex with ⟨l, hl, hml⟩
        rcases List.mem_cons.mp hl with rfl | hl'
        · exact absurd hml hm
        · exact ⟨l, hl', hml⟩
      rw [ih (fun l hl hml => hall l (List.mem_cons_of_mem _ hl) hml) hex']

theorem applyLevelLoop_neg_count (p q : ℚ) (hq : q ≤ 0) (bids bids' : List (ℚ × ℚ))
    (h : applyLevelLoop p q bids = some bids') :
    (bids'.countP (fun l => levelMatches l p)) + 1 =
      bids.countP (fun l => levelMatches l p) := by
  induction bids generalizing bids' with
  | nil => simp [applyLevelLoop] at h
  | cons hd rest ih =>
    by_cases hm : levelMatches hd p
    · rw [applyLevelLoop, if_pos hm, if_pos hq] at h
      obtain rfl : rest = bids' := by simpa using h
      simp [List.countP_cons, hm]
    · rw [applyLevelLoop, if_neg (by simpa using hm)] at h
      cases hrec : applyLevelLoop p q rest with
      | none => rw [hrec] at h; simp at h
      | some rest' =>
        rw [hrec] at h
        obtain rfl : hd :: rest' = bids' := by simpa using h
        simp only [List.countP_cons, hm, Bool.false_eq_true, if_false]
        have := ih rest' hrec
        omega

theorem levelMatches_self (p q : ℚ) : levelMatches (p, q) p = true := by
  simp [levelMatches]

theorem applyLevel_idem (bids : List (ℚ × ℚ)) (p q : ℚ)
    (h : 0 < q ∨ bids.countP (fun l => levelMatches l p) ≤ 1) :
    applyLevel (applyLevel bids p q) p q = applyLevel bids p q := by
  by_cases hq : 0 < q
  · cases hloop : applyLevelLoop p q bids with
    | some bids' =>
      have hab : applyLevel bids p q = bids' := by rw [applyLevel, hloop]
      rw [hab, applyLevel, applyLevelLoop_pos_idem p q hq bids bids' hloop]
    | none =>
      have hab : applyLevel bids p q = sortBidsDesc (bids ++ [(p, q)]) := by
        rw [applyLevel, hloop, if_pos hq]
      have hnm := (applyLevelLoop_none_iff p q bids).mp hloop
      have hstable : applyLevelLoop p q (sortBidsDesc (bids ++ [(p, q)])) =
          some (sortBidsDesc (bids ++ [(p, q)])) := by
        apply applyLevelLoop_stable p q hq
        · intro l hl hml
          rcases List.mem_append.mp (List.mem_mergeSort.mp hl) with hlb | hlq
          · exact absurd hml (by simp [hnm l hlb])
          · obtain rfl : l = (p, q) := by simpa using hlq
            rfl
        · refine ⟨(p, q), ?_, levelMatches_self p q⟩
          exact List.mem_mergeSort.mpr (List.mem_append.mpr (Or.inr (by simp)))
      rw [hab, applyLevel, hstable]
  · have hq' : q ≤ 0 := not_lt.mp hq
    rcases h with h | hc
    · exact absurd h hq
    cases hloop : applyLevelLoop p q bids with
    | none =>
      have hab : applyLevel bids p q = bids := by rw [applyLevel, hloop, if_neg hq]
      rw [hab, applyLevel, hloop, if_neg hq]
    | some bids' =>
      have hab : applyLevel bids p q = bids' := by rw [applyLevel, hloop]
      have hcount := applyLevelLoop_neg_count p q hq' bids bids' hloop
      have hzero : bids'.countP (fun l => levelMatches l p) = 0 := by omega
      have hnone : applyLevelLoop p q bids' = none := by
        rw [applyLevelLoop_none_iff]
        intro l hl
        have := List.countP_eq_zero.mp hzero l hl
        simpa using this
      rw [hab, applyLevel, hnone, if_neg hq]

theorem upsertA_upsertA {α : Type} (ps : List (String × α)) (k : String) (v w : α) :
    upsertA (upsertA ps k v) k w = upsertA ps k w := by
  induction ps with
  | nil => simp [upsertA]
  | cons hd rest ih =>
    by_cases h : hd.1 = k
    · simp [upsertA, h]
    · simp [upsertA, h, ih]

/-- C8 (counterexample): delta idempotence fails for a removal whose
price is within 0.001 of two stored levels.  With YES bids at $0.501 and
$0.500, applying the delta `(0.5005, qty 0)` once removes the $0.501
level; applying it a second time also removes the $0.500 level, so the
"same book" claim is false. -/
theorem delta_removal_not_idempotent :
    updateFromDelta (updateFromDelta cexBooks "M" [(1001/2000, 0)] []) "M"
        [(1001/2000, 0)] [] ≠
      updateFromDelta cexBooks "M" [(1001/2000, 0)] [] := by decide

/-- C8 (amended): applying the same single-level `(price, qty)` delta
twice via `update_from_delta` produces the same book as applying it once,
provided the delta has `qty > 0` (update/insert deltas are always
idempotent) or at most one stored level lies within the 0.001 matching
tolerance of the delta price — in particular for any book whose levels
sit on the one-cent price grid.  A `qty ≤ 0` removal can delete a second
nearby level when two stored levels are within the tolerance. -/
theorem updateFromDelta_single_idem (books : OrderBooks) (ticker : String) (p q : ℚ)
    (h : 0 < q ∨
      (((findA books ticker).getD { ticker := ticker }).yesBids.countP
        (fun l => levelMatches l p)) ≤ 1) :
    updateFromDelta (updateFromDelta books ticker [(p, q)] []) ticker [(p, q)] [] =
      updateFromDelta books ticker [(p, q)] [] := by
  simp only [updateFromDelta, List.foldl_cons, List.foldl_nil, findA_upsertA,
    Option.getD_some]
  rw [applyLevel_idem _ p q h, upsertA_upsertA]

/-- Witness for C8 (amended): removing the unique level matched at
exactly $0.501 in the counterexample book is idempotent. -/
theorem updateFromDelta_single_idem_witness :
    updateFromDelta (updateFromDelta cexBooks "M" [(501/1000, 0)] []) "M"
        [(501/1000, 0)] [] =
      updateFromDelta cexBooks "M" [(501/1000, 0)] [] :=
  updateFromDelta_single_idem cexBooks "M" (501/1000) 0 (Or.inr (by decide))

/-- C9: for a ticker with no stored book every query returns an explicit
no-data result (`None`, the empty list, or `0`) and leaves the store
unchanged, and `get_depth` raising `ValueError` (modelled as
`Except.error`) happens only for a side string outside the four valid
enum values. -/
theorem unknown_market_queries_no_data (books : OrderBooks) (ticker : String)
    (h : findA books ticker = none) :
    getBestYesBidS books ticker = (none, books) ∧
    getBestYesAskS books ticker = (none, books) ∧
    getBestNoAskS books ticker = (none, books) ∧
    getSpreadS books ticker = (none, books) ∧
    (∀ side levels, getDepthS books ticker side levels = (.ok [], books)) ∧
    (∀ side price, getTotalVolumeAtPriceS books ticker side price = (0, books)) ∧
    (∀ (bks : OrderBooks) (tk side : String) (levels : ℕ) (e : String),
      getDepth bks tk side levels = .error e →
      side ≠ "yes_bid" ∧ side ≠ "no_bid" ∧ side ≠ "yes_ask" ∧ side ≠ "no_ask") := by
  refine ⟨?_, ?_, ?_, ?_, ?_, ?_, ?_⟩
  · simp [getBestYesBidS, getBestYesBid, h]
  · simp [getBestYesAskS, getBestYesAsk, h]
  · simp [getBestNoAskS, getBestNoAsk, h]
  · simp [getSpreadS, getSpread, getBestYesBid, getBestYesAsk, h]
  · intro side levels; simp [getDepthS, getDepth, h]
  · intro side price; simp [getTotalVolumeAtPriceS, getTotalVolumeAtPrice, h]
  · intro bks tk side levels e herr
    rw [getDepth] at herr
    cases hb : findA bks tk with
    | none => rw [hb] at herr; simp at herr
    | some b =>
      rw [hb] at herr
      split_ifs at herr with h1 h2 h3 h4 <;> simp_all

/-- Witness for C9: the empty store has no book for "X"; the queries
return no-data there, and `get_depth` on the counterexample book with the
invalid side "bogus" errors only because the side string is invalid. -/
theorem unknown_market_queries_no_data_witness :
    getBestYesBidS [] "X" = (none, ([] : OrderBooks)) ∧
    getDepthS [] "X" "bogus" 5 = (.ok [], ([] : OrderBooks)) ∧
    getTotalVolumeAtPriceS [] "X" "bogus" (1/2) = (0, ([] : OrderBooks)) ∧
    ("bogus" ≠ "yes_bid" ∧ "bogus" ≠ "no_bid" ∧
      "bogus" ≠ "yes_ask" ∧ "bogus" ≠ "no_ask") :=
  ⟨(unknown_market_queries_no_data [] "X" rfl).1,
   (unknown_market_queries_no_data [] "X" rfl).2.2.2.2.1 "bogus" 5,
   (unknown_market_queries_no_data [] "X" rfl).2.2.2.2.2.1 "bogus" (1/2),
   (unknown_market_queries_no_data [] "X" rfl).2.2.2.2.2.2 cexBooks "M" "bogus" 5
     ("Unknown side: " ++ "bogus") rfl⟩

/-- Helper for C3: across one `process_trade` pass, every surviving
resting order descends from an input order with the same id and requested
count, a filled count that has not decreased, and a filled count bounded
by `max(old filled, count)`. -/
theorem processLoop_orders (tk sd : String) (tp : ℚ) (rv : ℤ)
    (orders : List RestingPaperOrder) :
    ∀ o' ∈ (processLoop tk sd tp rv orders).2.1,
      ∃ o ∈ orders, o'.orderId = o.orderId ∧ o'.count = o.count ∧
        o.filled ≤ o'.filled ∧ o'.filled ≤ max o.filled o.count := by
  induction orders generalizing rv with
  | nil => intro o' h; simp [processLoop] at h
  | cons o rest ih =>
    have lift : ∀ (rv' : ℤ), ∀ x ∈ (processLoop tk sd tp rv' rest).2.1,
        ∃ o0 ∈ o :: rest, x.orderId = o0.orderId ∧ x.count = o0.count ∧
          o0.filled ≤ x.filled ∧ x.filled ≤ max o0.filled o0.count := by
      intro rv' x hx
      obtain ⟨o0, ho0, hh⟩ := ih rv' x hx
      exact ⟨o0, List.mem_cons_of_mem _ ho0, hh⟩
    intro o' ho'
    simp only [processLoop] at ho'
    split_ifs at ho' <;> try simp only [List.mem_cons] at ho'
    all_goals try exact ⟨o', List.mem_cons.mpr ho', rfl, rfl, le_refl _, le_max_left _ _⟩
    all_goals try exact lift _ o' ho'
    all_goals rcases ho' with rfl | ho'
    all_goals try exact lift _ o' ho'
    all_goals try exact ⟨o', List.mem_cons_self _ _, rfl, rfl, le_refl _, le_max_left _ _⟩
    all_goals refine ⟨o, List.mem_cons_self _ _, ?_, ?_, ?_, ?_⟩ <;>
      (try simp [le_max_iff]) <;> omega

/-- C3: across any sequence of `process_trade` calls — including
sequences whose traded volumes sum to more than an order's size — every
surviving resting order keeps `0 ≤ filled ≤ count` (remaining ≥ 0) and
its filled count is monotonically non-decreasing relative to the order it
descends from. -/
theorem resting_fill_invariant (e : PaperEngine)
    (trades : List (String × String × ℤ × ℤ))
    (hok : ∀ o ∈ e.resting, orderOK o) :
    ∀ o' ∈ (processTrades e trades).resting,
      orderOK o' ∧ ∃ o ∈ e.resting,
        o'.orderId = o.orderId ∧ o'.count = o.count ∧ o.filled ≤ o'.filled := by
  induction trades generalizing e with
  | nil =>
    intro o' ho'
    exact ⟨hok o' ho', o', ho', rfl, rfl, le_refl _⟩
  | cons t rest ih =>
    obtain ⟨tk, sd, pc, ct⟩ := t
    intro o' ho'
    have hstep := processLoop_orders tk sd ((pc : ℚ)/100) ct e.resting
    have hok1 : ∀ o1 ∈ (processTrade e tk sd pc ct).1.resting, orderOK o1 := by
      intro o1 ho1
      obtain ⟨o0, ho0, hid, hcnt, hmono, hmax⟩ := hstep o1 ho1
      obtain ⟨hlo, hhi⟩ := hok o0 ho0
      exact ⟨le_trans hlo hmono, by rw [hcnt]; exact le_trans hmax (by omega)⟩
    have hne : (processTrades e (⟨tk, sd, pc, ct⟩ :: rest)).resting =
        (processTrades (processTrade e tk sd pc ct).1 rest).resting := rfl
    rw [hne] at ho'
    obtain ⟨hok', o1, ho1, hid1, hcnt1, hmono1⟩ := ih _ hok1 o' ho'
    obtain ⟨o0, ho0, hid0, hcnt0, hmono0, _⟩ := hstep o1 ho1
    exact ⟨hok', o0, ho0, hid1.trans hid0, hcnt1.trans hcnt0, le_trans hmono0 hmono1⟩

theorem findA_mem {α : Type} {ps : List (String × α)} {k : String} {v : α}
    (h : findA ps k = some v) : (k, v) ∈ ps := by
  induction ps with
  | nil => simp [findA] at h
  | cons hd rest ih =>
    rw [findA] at h
    by_cases hk : hd.1 = k
    · rw [if_pos hk] at h
      obtain rfl : hd.2 = v := by simpa using h
      have hhd : hd = (k, hd.2) := by
        rw [← hk]
      rw [hhd]
      exact List.mem_cons_self _ _
    · rw [if_neg hk] at h
      exact List.mem_cons_of_mem _ (ih h)

theorem pyRound2_pos {x : ℚ} (hx : 1/100 ≤ x) : 0 < pyRound x 2 := by
  have hfl : (1:ℤ) ≤ Rat.floor (x * 100) := by
    rw [ratFloor_eq]
    refine Int.le_floor.mpr ?_
    push_cast
    linarith
  have h0 : (0:ℚ) < (Rat.floor (x * 100) : ℚ) := by
    have : (1:ℚ) ≤ (Rat.floor (x * 100) : ℚ) := by exact_mod_cast hfl
    linarith
  have h1 : (0:ℚ) < (Rat.floor (x * 100) : ℚ) + 1 := by linarith
  rw [pyRound]
  simp only [pow_succ, pow_zero, one_mul]
  split_ifs <;> positivity

theorem getBestYesAsk_char {books : OrderBooks} {ticker : String} {ba : ℚ × ℤ}
    (h : getBestYesAsk books ticker = some ba) :
    ∃ b l, findA books ticker = some b ∧ l ∈ b.noBids ∧
      ba.1 = pyRound (1 - l.1) 2 := by
  rw [getBestYesAsk] at h
  cases hb : findA books ticker with
  | none => simp only [hb] at h; simp at h
  | some b =>
    simp only [hb] at h
    cases hnb : b.noBids with
    | nil => simp only [hnb] at h; simp at h
    | cons l rest =>
      simp only [hnb] at h
      refine ⟨b, l, rfl, by rw [hnb]; exact List.mem_cons_self _ _, ?_⟩
      obtain rfl : (pyRound (1 - l.1) 2, pyTrunc l.2) = ba := by simpa using h
      rfl

theorem getBestNoAsk_char {books : OrderBooks} {ticker : String} {ba : ℚ × ℤ}
    (h : getBestNoAsk books ticker = some ba) :
    ∃ b l, findA books ticker = some b ∧ l ∈ b.yesBids ∧
      ba.1 = pyRound (1 - l.1) 2 := by
  rw [getBestNoAsk] at h
  cases hb : findA books ticker with
  | none => simp only [hb] at h; simp at h
  | some b =>
    simp only [hb] at h
    cases hnb : b.yesBids with
    | nil => simp only [hnb] at h; simp at h
    | cons l rest =>
      simp only [hnb] at h
      refine ⟨b, l, rfl, by rw [hnb]; exact List.mem_cons_self _ _, ?_⟩
      obtain rfl : (pyRound (1 - l.1) 2, pyTrunc l.2) = ba := by simpa using h
      rfl

theorem getBestYesBid_char {books : OrderBooks} {ticker : String} {bb : ℚ × ℤ}
    (h : getBestYesBid books ticker = some bb) :
    ∃ b l, findA books ticker = some b ∧ l ∈ b.yesBids ∧ bb.1 = l.1 := by
  rw [getBestYesBid] at h
  cases hb : findA books ticker with
  | none => simp only [hb] at h; simp at h
  | some b =>
    simp only [hb] at h
    cases hnb : b.yesBids with
    | nil => simp only [hnb] at h; simp at h
    | cons l rest =>
      simp only [hnb] at h
      refine ⟨b, l, rfl, by rw [hnb]; exact List.mem_cons_self _ _, ?_⟩
      obtain rfl : (l.1, pyTrunc l.2) = bb := by simpa using h
      rfl

theorem booksWF_yes {books : OrderBooks} {ticker : String} {b : LocalOrderBook}
    {l : ℚ × ℚ} (hwf : booksWF books) (hb : findA books ticker = some b)
    (hl : l ∈ b.yesBids) : 1/100 ≤ l.1 ∧ l.1 ≤ 99/100 :=
  hwf (ticker, b) (findA_mem hb) l (List.mem_append.mpr (Or.inl hl))

theorem booksWF_no {books : OrderBooks} {ticker : String} {b : LocalOrderBook}
    {l : ℚ × ℚ} (hwf : booksWF books) (hb : findA books ticker = some b)
    (hl : l ∈ b.noBids) : 1/100 ≤ l.1 ∧ l.1 ≤ 99/100 :=
  hwf (ticker, b) (findA_mem hb) l (List.mem_append.mpr (Or.inr hl))

theorem bestOpposing_pos {books : OrderBooks} {ticker side action : String} {bp : ℚ}
    (hwf : booksWF books) (h : bestOpposing books ticker side action = some bp) :
    0 < bp := by
  rw [bestOpposing] at h
  split_ifs at h with h1 h2 h3
  · cases hask : getBestYesAsk books ticker with
    | none => rw [hask] at h; simp at h
    | some ba =>
      rw [hask] at h
      obtain rfl : ba.1 = bp := by simpa using h
      obtain ⟨b, l, hb, hl, hba⟩ := getBestYesAsk_char hask
      have h99 := (booksWF_no hwf hb hl).2
      rw [hba]
      exact pyRound2_pos (by linarith)
  · cases hask : getBestNoAsk books ticker with
    | none => rw [hask] at h; simp at h
    | some ba =>
      rw [hask] at h
      obtain rfl : ba.1 = bp := by simpa using h
      obtain ⟨b, l, hb, hl, hba⟩ := getBestNoAsk_char hask
      have h99 := (booksWF_yes hwf hb hl).2
      rw [hba]
      exact pyRound2_pos (by linarith)
  · cases hbid : getBestYesBid books ticker with
    | none => rw [hbid] at h; simp at h
    | some bb =>
      rw [hbid] at h
      obtain rfl : bb.1 = bp := by simpa using h
      obtain ⟨b, l, hb, hl, hbb⟩ := getBestYesBid_char hbid
      have h1l := (booksWF_yes hwf hb hl).1
      rw [hbb]
      linarith
  · cases hb : findA books ticker with
    | none => simp only [hb] at h; simp at h
    | some b =>
      simp only [hb] at h
      cases hnb : b.noBids with
      | nil => simp only [hnb] at h; simp at h
      | cons l rest =>
        simp only [hnb] at h
        obtain rfl : l.1 = bp := by simpa using h
        have h1l := (booksWF_no hwf hb (by rw [hnb]; exact List.mem_cons_self _ _)).1
        linarith

theorem getTakerFillPrice_char (books : OrderBooks) (ticker : String)
    {side action : String} (p : ℚ) (hwf : booksWF books)
    (hside : side = "yes" ∨ side = "no") (hact : action = "buy" ∨ action = "sell") :
    getTakerFillPrice books ticker side action p =
      match bestOpposing books ticker side action with
      | none => none
      | some bp => if crossesAt action p bp then some bp else none := by
  rcases hside with rfl | rfl <;> rcases hact with rfl | rfl
  · cases hask : getBestYesAsk books ticker with
    | none => simp [getTakerFillPrice, bestOpposing, hask]
    | some ba =>
      have hpos : 0 < ba.1 :=
        bestOpposing_pos hwf (show bestOpposing books ticker "yes" "buy" = some ba.1 by
          simp [bestOpposing, hask])
      by_cases hc : ba.1 ≤ p
      · simp [getTakerFillPrice, bestOpposing, crossesAt, hask, hc, hpos]
      · simp [getTakerFillPrice, bestOpposing, crossesAt, hask, hc]
  · cases hbid : getBestYesBid books ticker with
    | none => simp [getTakerFillPrice, bestOpposing, hbid]
    | some bb =>
      by_cases hc : p ≤ bb.1
      · simp [getTakerFillPrice, bestOpposing, crossesAt, hbid, hc]
      · simp [getTakerFillPrice, bestOpposing, crossesAt, hbid, hc]
  · cases hask : getBestNoAsk books ticker with
    | none => simp [getTakerFillPrice, bestOpposing, hask]
    | some ba =>
      have hpos : 0 < ba.1 :=
        bestOpposing_pos hwf (show bestOpposing books ticker "no" "buy" = some ba.1 by
          simp [bestOpposing, hask])
      by_cases hc : ba.1 ≤ p
      · simp [getTakerFillPrice, bestOpposing, crossesAt, hask, hc, hpos]
      · simp [getTakerFillPrice, bestOpposing, crossesAt, hask, hc]
  · cases hb : findA books ticker with
    | none => simp [getTakerFillPrice, bestOpposing, hb]
    | some b =>
      cases hnb : b.noBids with
      | nil => simp [getTakerFillPrice, bestOpposing, hb, hnb]
      | cons l rest =>
        by_cases hc : p ≤ l.1
        · simp [getTakerFillPrice, bestOpposing, crossesAt, hb, hnb, hc]
        · simp [getTakerFillPrice, bestOpposing, crossesAt, hb, hnb, hc]

/-- C7: a taker order (maker-only flag off) fills immediately and fully
at the best opposing price exactly when the requested price crosses it
(buy: price ≥ ask; sell: price ≤ bid); otherwise — including when no
opposing level exists — `try_fill` returns `None` without raising, and
only the touched best level is consulted. -/
theorem taker_crossing_fill (e : PaperEngine) (books : OrderBooks)
    (order : CreateOrderRequest) (oid : String) (nowClock : ℚ) (pc : ℤ)
    (hwf : booksWF books) (hpost : order.postOnly = false)
    (hside : order.side = "yes" ∨ order.side = "no")
    (hact : order.action = "buy" ∨ order.action = "sell")
    (hpc : (if order.side = "yes" then order.yesPrice else order.noPrice) = some pc)
    (hpcpos : 0 < pc) :
    (bestOpposing books order.ticker order.side order.action = none →
      (tryFill e books order oid nowClock).1 = none) ∧
    (∀ bp, bestOpposing books order.ticker order.side order.action = some bp →
      0 < bp ∧
      (crossesAt order.action ((pc : ℚ)/100) bp = true →
        (tryFill e books order oid nowClock).1 =
          some (mkFill order.ticker order.side order.action order.count bp true)) ∧
      (crossesAt order.action ((pc : ℚ)/100) bp = false →
        (tryFill e books order oid nowClock).1 = none)) := by
  have hred : (tryFill e books order oid nowClock).1 =
      match getTakerFillPrice books order.ticker order.side order.action
        ((pc : ℚ)/100) with
      | none => none
      | some fp => some (mkFill order.ticker order.side order.action order.count
          fp true) := by
    rw [tryFill]
    simp only [hpc, hpost, Bool.not_false, if_true, if_neg (not_le.mpr hpcpos)]
    cases hfp : getTakerFillPrice books order.ticker order.side order.action
        ((pc : ℚ)/100) with
    | none => simp [hfp]
    | some fp => simp [hfp]
  rw [getTakerFillPrice_char books order.ticker ((pc : ℚ)/100) hwf hside hact] at hred
  constructor
  · intro hnone
    rw [hnone] at hred
    exact hred
  · intro bp hbp
    rw [hbp] at hred
    refine ⟨bestOpposing_pos hwf hbp, ?_, ?_⟩
    · intro hc
      simp only [hc, if_true] at hred
      simpa using hred
    · intro hc
      simp only [hc, Bool.false_eq_true, if_false] at hred
      simpa using hred


/-- Witness for C3: the "T" order (10 contracts, 5 queued ahead) is hit
by two 50c trades of volume 8 and 9 (17 > 15) and is removed exactly
full; the untouched "U" order survives and satisfies the invariant. -/
theorem resting_fill_invariant_witness :
    orderOK exResting2 ∧ ∃ o ∈ exEngine.resting,
      exResting2.orderId = o.orderId ∧ exResting2.count = o.count ∧
        o.filled ≤ exResting2.filled :=
  resting_fill_invariant exEngine exTrades (by simp only [orderOK]; decide)
    exResting2 (by decide)

/-- Witness for C7: a taker buy of 7 YES at 50c against a $0.45 derived
ask fills fully at $0.45. -/
theorem taker_crossing_fill_witness :
    (bestOpposing exBooks exOrder.ticker exOrder.side exOrder.action = none →
      (tryFill {} exBooks exOrder "id" 0).1 = none) ∧
    (∀ bp, bestOpposing exBooks exOrder.ticker exOrder.side exOrder.action = some bp →
      0 < bp ∧
      (crossesAt exOrder.action ((50 : ℚ)/100) bp = true →
        (tryFill {} exBooks exOrder "id" 0).1 =
          some (mkFill exOrder.ticker exOrder.side exOrder.action exOrder.count bp true)) ∧
      (crossesAt exOrder.action ((50 : ℚ)/100) bp = false →
        (tryFill {} exBooks exOrder "id" 0).1 = none)) :=
  taker_crossing_fill {} exBooks exOrder "id" 0 50 (by unfold booksWF; decide) rfl
    (Or.inl rfl) (Or.inl rfl) rfl (by decide)

theorem dailyPnlRead_date (today : String) (t : PositionTracker) :
    (dailyPnlRead today t).2.dailyResetDate = today := by
  rw [dailyPnlRead]
  split_ifs with h
  · rfl
  · exact (not_ne_iff.mp h).symm

theorem dailyPnlRead_normalized {today : String} {t : PositionTracker}
    (h : t.dailyResetDate = today) : dailyPnlRead today t = (t.dailyPnl, t) := by
  rw [dailyPnlRead, if_neg (by simp [h])]

theorem checkKillSwitch_active {rm : RiskManager} (today : String)
    (h : rm.killSwitchActive = true) : checkKillSwitch rm today = (true, rm) := by
  rw [checkKillSwitch, if_pos h]

theorem checkKillSwitch_override {rm : RiskManager} (today : String)
    (h1 : rm.killSwitchActive = false) (h2 : rm.manualOverride = true) :
    checkKillSwitch rm today = (true, rm) := by
  rw [checkKillSwitch, if_neg (by simp [h1]), if_pos h2]

theorem checkKillSwitch_closed {rm : RiskManager} (today : String)
    (h1 : rm.killSwitchActive = false) (h2 : rm.manualOverride = false)
    (h3 : rm.exchangeOpen = false) :
    checkKillSwitch rm today = (true, { rm with killSwitchActive := true }) := by
  rw [checkKillSwitch, if_neg (by simp [h1]), if_neg (by simp [h2]),
    if_pos (by simp [h3])]

theorem checkKillSwitch_eq_daily {rm : RiskManager} (today : String)
    (h1 : rm.killSwitchActive = false) (h2 : rm.manualOverride = false)
    (h3 : rm.exchangeOpen = true) (hcap : 0 < rm.initialBalance) :
    checkKillSwitch rm today =
      (if (dailyPnlRead today rm.tracker).1 <
          -(DAILY_LOSS_LIMIT_PCT * rm.initialBalance)
       then (true, { rm with tracker := (dailyPnlRead today rm.tracker).2,
                             killSwitchActive := true })
       else (false, { rm with tracker := (dailyPnlRead today rm.tracker).2 })) := by
  rw [checkKillSwitch, if_neg (by simp [h1]), if_neg (by simp [h2]),
    if_neg (by simp [h3]), if_pos hcap]

theorem checkKillSwitch_false_state {rm : RiskManager} {today : String}
    (hcap : 0 < rm.initialBalance)
    (hk : (checkKillSwitch rm today).1 = false) :
    (checkKillSwitch rm today).2.tracker.dailyResetDate = today ∧
    (checkKillSwitch rm today).2.initialBalance = rm.initialBalance ∧
    (checkKillSwitch rm today).2.openOrders = rm.openOrders ∧
    (checkKillSwitch rm today).2.killSwitchActive = false := by
  by_cases h1 : rm.killSwitchActive
  · rw [checkKillSwitch_active today h1] at hk; simp at hk
  · by_cases h2 : rm.manualOverride
    · rw [checkKillSwitch_override today (by simpa using h1) h2] at hk
      simp at hk
    · by_cases h3 : rm.exchangeOpen
      · have heq := checkKillSwitch_eq_daily today (by simpa using h1)
          (by simpa using h2) h3 hcap
        rw [heq] at hk ⊢
        split_ifs at hk ⊢ with h5
        · refine ⟨?_, rfl, rfl, ?_⟩
          · exact dailyPnlRead_date today rm.tracker
          · simpa using h1
      · rw [checkKillSwitch_closed today (by simpa using h1) (by simpa using h2)
          (by simpa using h3)] at hk
        simp at hk

theorem checkSignal_tracker {rm : RiskManager} {today : String} (s : TradeSignal)
    (hdate : rm.tracker.dailyResetDate = today) :
    (checkSignal rm today s).2 = rm.tracker := by
  simp only [checkSignal, dailyPnlRead_normalized hdate]
  split_ifs <;> rfl

theorem checkSignal_eq_spec {rm : RiskManager} {today : String} (s : TradeSignal)
    (hcap : 0 < rm.initialBalance)
    (hdate : rm.tracker.dailyResetDate = today) :
    (checkSignal rm today s).1 = specFirstViolation rm s := by
  simp only [checkSignal, specFirstViolation, dailyPnlRead_normalized hdate]
  rw [if_neg (not_le.mpr hcap)]
  split_ifs <;> rfl

theorem filterLoop_pure {today : String} {rm' : RiskManager}
    (hdate : rm'.tracker.dailyResetDate = today) (sigs : List TradeSignal) :
    filterLoop today rm' sigs =
      (sigs.filter (fun s => (checkSignal rm' today s).1.isNone), rm') := by
  induction sigs with
  | nil => rfl
  | cons s rest ih =>
    simp only [filterLoop]
    rw [checkSignal_tracker s hdate]
    have heta : ({ rm' with tracker := rm'.tracker } : RiskManager) = rm' := rfl
    rw [heta, ih]
    by_cases hc : (checkSignal rm' today s).1 = none
    · simp [List.filter_cons, hc]
    · simp [List.filter_cons, hc, Option.isNone_iff_eq_none]

/-- C4: when the kill switch reports active, `filter_signals` rejects
every proposal — it returns the empty list and leaves the manager state
untouched, with no per-proposal evaluation; the tripped flag is sticky
(every later `check_kill_switch` keeps it) until an explicit
`reset_kill_switch`.  Scenario: with capital $10,000 and a 5% daily loss
limit, daily P&L -$520 trips the switch; after an explicit reset, daily
P&L -$100 does not trip it again. -/
theorem kill_switch_blanket_and_scenario :
    (∀ (rm : RiskManager) (today : String) (sigs : List TradeSignal),
      rm.killSwitchActive = true → filterSignals rm today sigs = ([], rm)) ∧
    (∀ (rm : RiskManager) (today : String), rm.killSwitchActive = true →
      checkKillSwitch rm today = (true, rm)) ∧
    (∀ rm : RiskManager, (resetKillSwitch rm).killSwitchActive = false) ∧
    (checkKillSwitch rmTrip "2026-02-14").1 = true ∧
    (checkKillSwitch rmTrip "2026-02-14").2.killSwitchActive = true ∧
    (checkKillSwitch
      { resetKillSwitch (checkKillSwitch rmTrip "2026-02-14").2 with
        tracker := { (checkKillSwitch rmTrip "2026-02-14").2.tracker with
          dailyPnl := -100 } } "2026-02-14").1 = false := by
  refine ⟨?_, ?_, ?_, by decide, by decide, by decide⟩
  · intro rm today sigs h
    simp [filterSignals, checkKillSwitch_active today h]
  · intro rm today h
    exact checkKillSwitch_active today h
  · intro rm
    rfl

/-- C6 (amended): provided the risk manager's capital is positive (and
the kill-switch check reports false), `filter_signals` returns exactly
the proposals whose `_check_signal` rejection is `none`, preserving the
original relative order; a rejected proposal is rejected against the
first rule it violates in the fixed order (1 single-trade notional,
2 per-strike, 3 per-event, 4 total exposure, 5 cash buffer, 6 daily
loss, 7 weekly loss), and every rejection carries a non-empty
human-readable reason.  When capital ≤ 0 every proposal is instead
rejected with the distinct reason `No capital available`, even if it
violates none of the seven rules. -/
theorem filter_signals_seven_rules (rm : RiskManager) (today : String)
    (sigs : List TradeSignal) (hcap : 0 < rm.initialBalance)
    (hk : (checkKillSwitch rm today).1 = false) :
    (filterSignals rm today sigs).1 =
      sigs.filter
        (fun s => (checkSignal (checkKillSwitch rm today).2 today s).1.isNone) ∧
    (∀ s : TradeSignal, (checkSignal (checkKillSwitch rm today).2 today s).1 =
      specFirstViolation (checkKillSwitch rm today).2 s) ∧
    (∀ (s : TradeSignal) (r : RejectReason),
      (checkSignal (checkKillSwitch rm today).2 today s).1 = some r →
      reasonText r ≠ "") := by
  obtain ⟨hdate, hbal, -, -⟩ := checkKillSwitch_false_state hcap hk
  have hcap1 : 0 < (checkKillSwitch rm today).2.initialBalance := by
    rw [hbal]; exact hcap
  refine ⟨?_, ?_, ?_⟩
  · rw [filterSignals, if_neg (by simp [hk]), filterLoop_pure hdate sigs]
  · intro s
    exact checkSignal_eq_spec s hcap1 hdate
  · intro s r _
    cases r <;> decide

/-- C6 (counterexample): with capital $0, the kill switch does not trip,
a zero-contract proposal violates none of the seven limit rules, yet
`filter_signals` rejects it ("No capital available") — so the returned
list is not the set of proposals passing all seven checks. -/
theorem zero_capital_guard_counterexample :
    (checkKillSwitch rmZero "2026-02-14").1 = false ∧
    specFirstViolation (checkKillSwitch rmZero "2026-02-14").2 sigZero = none ∧
    (checkSignal (checkKillSwitch rmZero "2026-02-14").2 "2026-02-14" sigZero).1 =
      some RejectReason.noCapital ∧
    (filterSignals rmZero "2026-02-14" [sigZero]).1 = [] := by
  refine ⟨by decide, by decide, by decide, by decide⟩

/-- Witness for C6 (amended): a $5 proposal against a fresh $10,000 book
is approved and the rule correspondence holds. -/
theorem filter_signals_seven_rules_witness :
    (filterSignals rmOK "2026-02-14" [sigSmall]).1 =
      [sigSmall].filter
        (fun s => (checkSignal (checkKillSwitch rmOK "2026-02-14").2 "2026-02-14" s).1.isNone) ∧
    (∀ s : TradeSignal,
      (checkSignal (checkKillSwitch rmOK "2026-02-14").2 "2026-02-14" s).1 =
        specFirstViolation (checkKillSwitch rmOK "2026-02-14").2 s) ∧
    (∀ (s : TradeSignal) (r : RejectReason),
      (checkSignal (checkKillSwitch rmOK "2026-02-14").2 "2026-02-14" s).1 = some r →
      reasonText r ≠ "") :=
  filter_signals_seven_rules rmOK "2026-02-14" [sigSmall] (by decide) (by decide)

/-- Witness for C4: with the switch already tripped, a concrete signal
list is rejected wholesale and the state is unchanged. -/
theorem kill_switch_blanket_and_scenario_witness :
    filterSignals { rmTrip with killSwitchActive := true } "2026-02-14" [sigSmall] =
      ([], { rmTrip with killSwitchActive := true }) ∧
    checkKillSwitch { rmTrip with killSwitchActive := true } "2026-02-14" =
      (true, { rmTrip with killSwitchActive := true }) :=
  ⟨kill_switch_blanket_and_scenario.1 _ "2026-02-14" [sigSmall] rfl,
   kill_switch_blanket_and_scenario.2.1 _ "2026-02-14" rfl⟩
